import Mathlib

/-!
Verification of the broker pull-bridge protocol engine
(`src/slack-bridge/broker-bridge.mjs`) against its specification.

The relevant parts of the bridge are shallowly embedded below:

* configuration parsing (`clampInt` and the derived constants),
* the poll-loop backoff state machine,
* the thread registry (`evictOldThreads` / `getThreadId`),
* the health recorder (`markHealth` / `persistBrokerHealth`),
* the broker-token freshness guard (`isBrokerAccessTokenExpired` /
  `brokerFetch`),
* the per-message processing pipeline and the poll-cycle message loop
  (`processPulledMessage` and the body of `startPollLoop`),
* the `/reply` handler of the local API server.

External collaborators that are not part of the repository (libsodium,
`security.mjs`, `crypto.mjs`, the file system, `Date.now`, `Date.parse`)
are abstracted as oracle parameters: crypto primitives become functions
returning their outcome, clock values become explicit arguments, and
file-system writes become an explicit result plus a trace of actions.
JavaScript `Map`s are modelled as association lists in insertion order
(a `Map.set` of a fresh key appends; iteration runs front to back, so
the front is the least recently inserted entry), and JavaScript string
truthiness (`!s`) is the test `s = ""`.
-/

namespace Bridge

/-! ## Association-list helpers (the JS `Map` operations used by the bridge) -/

/-- `Map.get`: the value stored under `k`, front to back. -/
def lookupA {α : Type} : List (String × α) → String → Option α
  | [], _ => none
  | kv :: rest, k => if kv.1 = k then some kv.2 else lookupA rest k

/-- `Map.delete k`: removes the (unique) entry stored under `k`. -/
def eraseKeyA {α : Type} (k : String) : List (String × α) → List (String × α)
  | [] => []
  | kv :: rest => if kv.1 = k then rest else kv :: eraseKeyA k rest

/-! ## Configuration (`clampInt` and the env-derived constants)

`clampInt(value, min, max, fallback)` parses its argument with
`Number.parseInt` and clamps it; a value that does not parse to a finite
integer yields the fallback.  The parse result is modelled as an
`Option Int` (`none` = not a finite integer). -/

def clampInt (value : Option Int) (mn mx fallback : Int) : Int :=
  match value with
  | none => fallback
  | some parsed => min mx (max mn parsed)

/-- `POLL_INTERVAL_MS = clampInt(env.SLACK_BROKER_POLL_INTERVAL_MS || "3000", 0, 60_000, 3000)`. -/
def POLL_INTERVAL_MS (cfg : Option Int) : Int := clampInt cfg 0 60000 3000

/-- `MAX_MESSAGES = clampInt(env.SLACK_BROKER_MAX_MESSAGES || "10", 1, 100, 10)`. -/
def MAX_MESSAGES (cfg : Option Int) : Int := clampInt cfg 1 100 10

def MAX_WAIT_SECONDS : Int := 25

/-- `BROKER_WAIT_SECONDS = clampInt(env.SLACK_BROKER_WAIT_SECONDS || "20", 0, MAX_WAIT_SECONDS, 20)`. -/
def BROKER_WAIT_SECONDS (cfg : Option Int) : Int := clampInt cfg 0 MAX_WAIT_SECONDS 20

/-- Default of `DEDUPE_TTL_MS` (20 minutes in milliseconds); the claims under
test do not depend on the configured value, so the default is used. -/
def DEDUPE_TTL_MS : Nat := 1200000

def MAX_BACKOFF_MS : Int := 30000

def INBOX_PROTOCOL_VERSION : String := "2026-02-1"

/-! ## The wire pull request built by `pullInbox` -/

structure InboxPullRequest where
  workspace_id : String
  protocol_version : String
  max_messages : Int
  wait_seconds : Int
  timestamp : Int
  signature : String
deriving DecidableEq

/-- The body `pullInbox` POSTs to `/api/inbox/pull`: the configured
`max_messages` and `wait_seconds` after clamping.  The signature is produced
by `signPullRequest` (crypto, abstracted as an argument). -/
def pullInboxRequest (cfgMax cfgWait : Option Int) (wsId : String)
    (timestamp : Int) (signature : String) : InboxPullRequest :=
  { workspace_id := wsId
    protocol_version := INBOX_PROTOCOL_VERSION
    max_messages := MAX_MESSAGES cfgMax
    wait_seconds := BROKER_WAIT_SECONDS cfgWait
    timestamp := timestamp
    signature := signature }

/-! ## The poll-loop backoff state machine (`startPollLoop`)

One loop iteration either fully succeeds (pull, per-message processing and
ack all complete), after which `backoffMs` is reset to the base interval and
an extra sleep of the base interval is taken only in short-poll mode
(`BROKER_WAIT_SECONDS <= 0`); or it fails with an exception, after which the
loop sleeps `backoffMs` and then sets
`backoffMs = min(MAX_BACKOFF_MS, max(POLL_INTERVAL_MS, backoffMs * 2))`. -/

structure LoopSim where
  backoffMs : Int
deriving DecidableEq

def nextBackoffMs (base cur : Int) : Int := min MAX_BACKOFF_MS (max base (2 * cur))

/-- One poll-loop iteration: the sleeps it performs and the next state.
`ok = true` is a fully successful iteration. -/
def loopStep (base waitSeconds : Int) (st : LoopSim) (ok : Bool) : List Int × LoopSim :=
  if ok then
    ((if waitSeconds ≤ 0 then [base] else []), ⟨base⟩)
  else
    ([st.backoffMs], ⟨nextBackoffMs base st.backoffMs⟩)

/-- A run of iterations: all sleeps in order, and the final state. -/
def loopRun (base waitSeconds : Int) : LoopSim → List Bool → List Int × LoopSim
  | st, [] => ([], st)
  | st, ok :: rest =>
      let s := loopStep base waitSeconds st ok
      let r := loopRun base waitSeconds s.2 rest
      (s.1 ++ r.1, r.2)

/-- The sleep taken by the `(k+1)`-st consecutive failed iteration, starting
from a reset state (`backoffMs = base`). -/
def failureSleep (base : Int) : Nat → Int
  | 0 => base
  | k + 1 => nextBackoffMs base (failureSleep base k)

/-! ## Thread registry (`evictOldThreads`, `getThreadId`)

`threadRegistry : Map<thread_id, entry>` and
`threadLookup : Map<"channel:thread_ts", thread_id>` are modelled as
association lists in `Map` insertion order (front = oldest).  `Date.now()`
is the explicit `now` argument. -/

def MAX_THREADS : Nat := 10000

structure ThreadEntry where
  channel : String
  thread_ts : String
  createdAt : Nat
  lastAccessAt : Nat
deriving DecidableEq

structure ThreadState where
  threadRegistry : List (String × ThreadEntry)
  threadLookup : List (String × String)
  threadCounter : Nat
deriving DecidableEq

def emptyThreadState : ThreadState := ⟨[], [], 0⟩

/-- The `threadLookup` key, `` `${channel}:${threadTs}` ``. -/
def threadKey (channel threadTs : String) : String := channel ++ ":" ++ threadTs

/-- `evictOldThreads`: a no-op below capacity; at capacity it removes the
first `max(1, floor(MAX_THREADS * 0.1))` entries of the registry's current
iteration order, together with their lookup keys. -/
def evictOldThreads (s : ThreadState) : ThreadState :=
  if s.threadRegistry.length < MAX_THREADS then s
  else
    let evictCount := max 1 (MAX_THREADS / 10)
    let evicted := s.threadRegistry.take evictCount
    { s with
      threadRegistry := s.threadRegistry.drop evictCount
      threadLookup :=
        evicted.foldl (fun lk e => eraseKeyA (threadKey e.2.channel e.2.thread_ts) lk) s.threadLookup }

def threadIdStr (n : Nat) : String := "thread-" ++ toString n

/-- `getThreadId(channel, threadTs)`: get-or-create.  On a miss it evicts if
at capacity, increments the counter and appends a fresh entry; on a hit it
deletes and re-inserts the registry entry (refreshing `lastAccessAt`), which
moves it to the back of the iteration order. -/
def getThreadId (s : ThreadState) (channel threadTs : String) (now : Nat) :
    String × ThreadState :=
  let key := threadKey channel threadTs
  match lookupA s.threadLookup key with
  | none =>
      let s1 := evictOldThreads s
      let counter := s1.threadCounter + 1
      let id := threadIdStr counter
      (id,
        { threadRegistry := s1.threadRegistry ++ [(id, ⟨channel, threadTs, now, now⟩)]
          threadLookup := (key, id) :: s1.threadLookup
          threadCounter := counter })
  | some id =>
      match lookupA s.threadRegistry id with
      | some existing =>
          (id,
            { s with
              threadRegistry :=
                eraseKeyA id s.threadRegistry ++ [(id, { existing with lastAccessAt := now })] })
      | none => (id, s)

/-- A sequence of `getThreadId` calls `(channel, threadTs, now)`, threading
the registry state. -/
def runThreadCalls (s : ThreadState) : List (String × String × Nat) → ThreadState
  | [] => s
  | c :: rest => runThreadCalls (getThreadId s c.1 c.2.1 c.2.2).2 rest

/-! ### A concrete reachable scenario for the eviction-order question

Distinct thread keys are generated by strings of distinct lengths, so that
their distinctness is provable without evaluating 10000-element lists. -/

def tsKey (i : Nat) : String := String.mk (List.replicate i 'a')

/-- Fill calls: `n` distinct `(channel, thread_ts)` pairs at times `0..n-1`. -/
def fillCalls (n : Nat) : List (String × String × Nat) :=
  (List.range n).map (fun i => ("c", tsKey i, i))

/-- The registry entry created by the `i`-th fill call. -/
def fillRegEntry (i : Nat) : String × ThreadEntry :=
  (threadIdStr (i + 1), ⟨"c", tsKey i, i, i⟩)

/-- The lookup entry created by the `i`-th fill call. -/
def fillLookupEntry (i : Nat) : String × String :=
  (threadKey "c" (tsKey i), threadIdStr (i + 1))

/-- Fill to capacity, then touch the very first key again (a lookup hit, at
time `MAX_THREADS`): the state just before an insert at capacity. -/
def lruScenarioState : ThreadState :=
  runThreadCalls emptyThreadState (fillCalls MAX_THREADS ++ [("c", tsKey 0, MAX_THREADS)])

/-- The claimed eviction discipline at one `getThreadId` call: whenever an
entry disappears from the registry, it is at least as old (by `createdAt`,
the insertion timestamp) as every entry that survives the call. -/
def evictedOldestFirst (s : ThreadState) (channel threadTs : String) (now : Nat) : Prop :=
  ∀ gone ∈ s.threadRegistry, ∀ kept ∈ s.threadRegistry,
    gone ∉ ((getThreadId s channel threadTs now).2).threadRegistry →
    kept ∈ ((getThreadId s channel threadTs now).2).threadRegistry →
    gone.2.createdAt ≤ kept.2.createdAt

/-! ## Health recorder (`brokerHealth`, `persistBrokerHealth`, `markHealth`)

Timestamps (`new Date().toISOString()`) are abstracted to a `Nat` clock
value.  The file system is abstracted: a persist attempt is given its
outcome (`Except String Unit`, `.error` = one of the `fs` calls threw) and,
on success, yields the trace of file-system actions performed.  `markHealth`
contains no `try`/`catch` in the source, so in the model it returns
`Except`: an `fs` exception propagates to its caller. -/

structure PollHealth where
  last_ok_at : Option Nat
  last_error_at : Option Nat
  consecutive_failures : Nat
  last_error : Option String
deriving DecidableEq

structure InboundHealth where
  last_decrypt_ok_at : Option Nat
  last_decrypt_error_at : Option Nat
  last_process_ok_at : Option Nat
  last_process_error_at : Option Nat
  last_error : Option String
deriving DecidableEq

structure StageHealth where
  last_ok_at : Option Nat
  last_error_at : Option Nat
  last_error : Option String
deriving DecidableEq

structure BrokerHealth where
  updated_at : Option Nat
  poll : PollHealth
  inbound : InboundHealth
  ack : StageHealth
  outbound : StageHealth
deriving DecidableEq

/-- The initial `brokerHealth` record (metadata string fields omitted). -/
def initialBrokerHealth : BrokerHealth :=
  { updated_at := none
    poll := ⟨none, none, 0, none⟩
    inbound := ⟨none, none, none, none, none⟩
    ack := ⟨none, none, none⟩
    outbound := ⟨none, none, none⟩ }

/-- `trimError`: the error message (or `"unknown error"`) cut to 400 chars. -/
def trimError (err : Option String) : String :=
  (err.getD "unknown error").take 400

def brokerHealthPath (home : String) : String := home ++ "/.pi/agent/broker-health.json"

def brokerHealthDir (home : String) : String := home ++ "/.pi/agent"

def brokerHealthTmp (home : String) : String := brokerHealthPath home ++ ".tmp"

inductive FsAction
  | mkdirRecursive (dir : String)
  | writeFile (p : String) (record : BrokerHealth)
  | renameFile (src dst : String)
deriving DecidableEq

/-- `persistBrokerHealth`: stamps `updated_at`, then `mkdirSync(dir)`,
`writeFileSync(tmp)`, `renameSync(tmp, path)`.  An `fs` exception is
propagated. -/
def persistBrokerHealth (fsResult : Except String Unit) (home : String)
    (now : Nat) (h : BrokerHealth) : Except String (BrokerHealth × List FsAction) :=
  let h2 := { h with updated_at := some now }
  match fsResult with
  | .error e => .error e
  | .ok _ =>
      .ok (h2,
        [.mkdirRecursive (brokerHealthDir home),
         .writeFile (brokerHealthTmp home) h2,
         .renameFile (brokerHealthTmp home) (brokerHealthPath home)])

/-- `markHealth(section, ok, err)`: updates the matching sub-record and
persists; an unknown section falls through without updating or persisting. -/
def markHealth (fsResult : Except String Unit) (home : String) (now : Nat)
    (h : BrokerHealth) (sec : String) (ok : Bool) (err : Option String) :
    Except String (BrokerHealth × List FsAction) :=
  if sec = "poll" then
    let h2 :=
      if ok then
        { h with poll := { h.poll with last_ok_at := some now, consecutive_failures := 0,
                                       last_error := none } }
      else
        { h with poll := { h.poll with last_error_at := some now,
                                       consecutive_failures := h.poll.consecutive_failures + 1,
                                       last_error := some (trimError err) } }
    persistBrokerHealth fsResult home now h2
  else if sec = "inbound_decrypt" then
    let h2 :=
      if ok then { h with inbound := { h.inbound with last_decrypt_ok_at := some now } }
      else
        { h with inbound := { h.inbound with last_decrypt_error_at := some now,
                                             last_error := some (trimError err) } }
    persistBrokerHealth fsResult home now h2
  else if sec = "inbound_process" then
    let h2 :=
      if ok then { h with inbound := { h.inbound with last_process_ok_at := some now } }
      else
        { h with inbound := { h.inbound with last_process_error_at := some now,
                                             last_error := some (trimError err) } }
    persistBrokerHealth fsResult home now h2
  else if sec = "ack" then
    let h2 :=
      if ok then { h with ack := { h.ack with last_ok_at := some now, last_error := none } }
      else
        { h with ack := { h.ack with last_error_at := some now,
                                     last_error := some (trimError err) } }
    persistBrokerHealth fsResult home now h2
  else if sec = "outbound" then
    let h2 :=
      if ok then { h with outbound := { h.outbound with last_ok_at := some now, last_error := none } }
      else
        { h with outbound := { h.outbound with last_error_at := some now,
                                               last_error := some (trimError err) } }
    persistBrokerHealth fsResult home now h2
  else .ok (h, [])

/-! ## Broker token freshness (`isBrokerAccessTokenExpired`, `brokerFetch`)

`Date.parse` of the configured expiry string is abstracted as an oracle
`parseDate : String → Option Int` (`none` = `NaN`); `Date.now()` is the
explicit `now`.  `process.exit(1)` is modelled as the `exited` outcome:
`brokerFetch` calls `enforceBrokerTokenFreshnessOrExit()` before every
HTTP request. -/

def isBrokerAccessTokenExpired (parseDate : String → Option Int)
    (token expiresAtStr : String) (now : Int) : Bool :=
  if token = "" then false
  else if expiresAtStr = "" then false
  else
    match parseDate expiresAtStr with
    | none => false
    | some t => decide (t ≤ now)

/-- `enforceBrokerTokenFreshnessOrExit` (also run once at startup, before the
poll loop starts): `some code` = the process exited with that code. -/
def enforceBrokerTokenFreshnessOrExit (parseDate : String → Option Int)
    (token expiresAtStr : String) (now : Int) : Option Nat :=
  if isBrokerAccessTokenExpired parseDate token expiresAtStr now then some 1 else none

inductive BrokerFetchOutcome
  | exited (code : Nat)
  | httpIssued (url : String)
deriving DecidableEq

/-- `brokerFetch(pathname, body)` up to the point the HTTP request is issued:
the freshness guard runs first and exits the process when the token has
expired. -/
def brokerFetch (parseDate : String → Option Int) (token expiresAtStr : String)
    (now : Int) (baseUrl pathname : String) : BrokerFetchOutcome :=
  match enforceBrokerTokenFreshnessOrExit parseDate token expiresAtStr now with
  | some code => .exited code
  | none => .httpIssued (baseUrl ++ pathname)

/-! ## The processing pipeline and the poll-cycle message loop

The decrypted Slack payload is the discriminated shape the source inspects;
fields the source reads with `||`-fallbacks are `Option String` (`none` =
absent).  Crypto (`verifyBrokerEnvelope`'s signature check,
`crypto_box_seal_open`, `JSON.parse`) and the security collaborator
(`isAllowed`, the rate limiter, `cleanMessage`, `wrapExternalContent`, the
agent socket and the outcomes of `sendToAgent` / `sendViaBroker`) are
oracle records.  Every externally visible action of one poll cycle is
recorded in a trace of `Effect`s tagged with the `message_id` being
handled at the time. -/

structure BrokerMessage where
  message_id : String
  workspace_id : String
  encrypted : String
  broker_timestamp : Int
  broker_signature : String
deriving DecidableEq

structure SlackEvent where
  type_ : String
  user : String
  channel : String
  ts : String
  thread_ts : Option String
  text : Option String
  bot_id : Option String
  subtype : Option String
  channel_type : Option String
deriving DecidableEq

structure SlackPayload where
  type_ : Option String
  event : Option SlackEvent
deriving DecidableEq

/-- The crypto outcomes for a pulled message: `verify` is
`verifyBrokerEnvelope`'s signature check, `sealOpen` is
`crypto_box_seal_open` (`none` = decryption failed), `parseJson` is
`JSON.parse` on the plaintext (`none` = `SyntaxError`). -/
structure CryptoOracle where
  verify : BrokerMessage → Bool
  sealOpen : BrokerMessage → Option String
  parseJson : String → Option SlackPayload

/-- The security collaborator and local-delivery outcomes. -/
structure PolicyOracle where
  isAllowed : String → Bool
  rateCheck : String → Bool
  cleanMessage : String → String
  wrap : String → SlackEvent → String
  socketPath : Option String
  agentSendOk : Bool
  brokerSendOk : Bool

inductive Effect
  | skippedNoIdLog
  | dupBadSigLog
  | verifyCall
  | sealOpenCall
  | healthMark (sec : String) (ok : Bool)
  | brokerSay (channel : String) (text : String) (ts : String)
  | forwardToAgent (context : String)
  | processAttemptLog
deriving DecidableEq

inductive BridgeError
  | invalidSignature
  | decryptFailed (mid : String)
  | jsonParseFailed
  | agentSendFailed
  | outboundSendFailed
deriving DecidableEq

/-- `isPoisonMessageError`: matches the two poison message texts,
`"invalid broker envelope signature"` and
`"failed to decrypt broker envelope"`.  A `JSON.parse` `SyntaxError`
contains neither, nor do agent-socket or broker-send errors. -/
def isPoisonMessageError : BridgeError → Bool
  | .invalidSignature => true
  | .decryptFailed _ => true
  | _ => false

/-- JS string truthiness of a possibly absent field. -/
def jsStrTruthy : Option String → Bool
  | none => false
  | some s => !(s == "")

/-- `a || b` for a possibly absent string field. -/
def jsStrOr (a : Option String) (b : String) : String :=
  match a with
  | none => b
  | some s => if s == "" then b else s

/-- `String(x || "")` for a possibly absent string field. -/
def jsTextString (a : Option String) : String := jsStrOr a ""

/-- `say(channel, text, threadTs)`: one `sendViaBroker` call, which marks
`outbound` health and throws when the broker send fails. -/
def sayEffects (po : PolicyOracle) (channel text ts : String) :
    List Effect × Option BridgeError :=
  if po.brokerSendOk then
    ([.brokerSay channel text ts, .healthMark "outbound" true], none)
  else
    ([.brokerSay channel text ts, .healthMark "outbound" false], some .outboundSendFailed)

/-- `handleUserMessage(userMessage, event)`: allow-list, rate limit, socket
lookup, wrap, thread-id allocation, then the fire-and-forget agent delivery
through the ordered queue (whose send confirmation is awaited).  The
`detectSuspiciousPatterns` step only logs a warning and is omitted. -/
def handleUserMessage (po : PolicyOracle) (threads : ThreadState)
    (userMessage : String) (ev : SlackEvent) (now : Nat) :
    List Effect × ThreadState × Option BridgeError :=
  if !po.isAllowed ev.user then
    let s := sayEffects po ev.channel "Sorry, I\x27m not configured to respond to you." ev.ts
    (s.1, threads, s.2)
  else if !po.rateCheck ev.user then
    let s := sayEffects po ev.channel "Slow down — too many messages. Try again in a minute." ev.ts
    (s.1, threads, s.2)
  else
    match po.socketPath with
    | none =>
        let s := sayEffects po ev.channel "⏳ Agent is starting up — try again in a moment." ev.ts
        (s.1, threads, s.2)
    | some _sock =>
        let wrapped := po.wrap userMessage ev
        let r := getThreadId threads ev.channel (jsStrOr ev.thread_ts ev.ts) now
        let ctx := wrapped ++ "\n[Bridge-Thread-ID: " ++ r.1 ++ "]"
        if po.agentSendOk then ([.forwardToAgent ctx], r.2, none)
        else ([.forwardToAgent ctx], r.2, some .agentSendFailed)

/-- `processPulledMessage(message)`: verify → decrypt (with
`inbound_decrypt` health marks; `JSON.parse` runs inside `decryptEnvelope`,
so a `SyntaxError` is marked as a decrypt-stage failure) → type dispatch →
`handleUserMessage`.  `none` as the error means the source returned `true`;
`some e` means it threw `e`. -/
def processPulledMessage (co : CryptoOracle) (po : PolicyOracle)
    (threads : ThreadState) (m : BrokerMessage) (now : Nat) :
    List Effect × ThreadState × Option BridgeError :=
  if !co.verify m then ([.verifyCall], threads, some .invalidSignature)
  else
    match co.sealOpen m with
    | none =>
        ([.verifyCall, .sealOpenCall, .healthMark "inbound_decrypt" false], threads,
          some (.decryptFailed m.message_id))
    | some plaintext =>
        match co.parseJson plaintext with
        | none =>
            ([.verifyCall, .sealOpenCall, .healthMark "inbound_decrypt" false], threads,
              some .jsonParseFailed)
        | some payload =>
            let pre := [Effect.verifyCall, .sealOpenCall, .healthMark "inbound_decrypt" true]
            if payload.type_ ≠ some "event_callback" then (pre, threads, none)
            else
              match payload.event with
              | none => (pre, threads, none)
              | some ev =>
                  if ev.type_ = "app_mention" then
                    let userMessage := po.cleanMessage (jsTextString ev.text)
                    if userMessage = "" then
                      let s := sayEffects po ev.channel "👋 I\x27m here! Send me a message." ev.ts
                      (pre ++ s.1, threads, s.2)
                    else
                      let r := handleUserMessage po threads userMessage ev now
                      (pre ++ r.1, r.2.1, r.2.2)
                  else if ev.type_ = "message" then
                    if jsStrTruthy ev.bot_id || jsStrTruthy ev.subtype then (pre, threads, none)
                    else if ev.channel_type ≠ some "im" then (pre, threads, none)
                    else
                      let text := (jsTextString ev.text).trim
                      if text = "" then (pre, threads, none)
                      else
                        let r := handleUserMessage po threads text ev now
                        (pre ++ r.1, r.2.1, r.2.2)
                  else (pre, threads, none)

/-! ### The poll-cycle message loop (the body of `startPollLoop`'s `for`) -/

structure BridgeState where
  dedupe : List (String × Nat)
  threads : ThreadState
deriving DecidableEq

/-- `pruneDedupe()`: drop entries with `expiresAt <= now`. -/
def pruneDedupe (d : List (String × Nat)) (now : Nat) : List (String × Nat) :=
  d.filter (fun kv => !(kv.2 ≤ now : Bool))

structure CycleAcc where
  trace : List (String × Effect)
  ackIds : List String
  state : BridgeState
deriving DecidableEq

/-- One iteration of `for (const message of messages)`: skip a message with
no `message_id`; re-acknowledge (but never re-process) a deduped id, even
when its redelivered signature is invalid; otherwise process, and on success
mark health, remember the id for `DEDUPE_TTL_MS` and queue the ack, while on
an exception mark health and queue the ack only for poison errors.
`processPulledMessage` always returns `true` when it does not throw, so the
source's `not-ok` branch is unreachable and not modelled. -/
def pollCycleStep (co : CryptoOracle) (po : PolicyOracle) (now : Nat)
    (acc : CycleAcc) (m : BrokerMessage) : CycleAcc :=
  if m.message_id = "" then
    { acc with trace := acc.trace ++ [(m.message_id, .skippedNoIdLog)] }
  else if (lookupA acc.state.dedupe m.message_id).isSome then
    if !co.verify m then
      { acc with
        trace := acc.trace ++ [(m.message_id, .verifyCall), (m.message_id, .dupBadSigLog)]
        ackIds := acc.ackIds ++ [m.message_id] }
    else
      { acc with
        trace := acc.trace ++ [(m.message_id, .verifyCall)]
        ackIds := acc.ackIds ++ [m.message_id] }
  else
    let r := processPulledMessage co po acc.state.threads m now
    let tagged := (m.message_id, Effect.processAttemptLog) :: r.1.map (fun e => (m.message_id, e))
    match r.2.2 with
    | none =>
        { trace := acc.trace ++ tagged ++ [(m.message_id, .healthMark "inbound_process" true)]
          ackIds := acc.ackIds ++ [m.message_id]
          state :=
            { dedupe := (m.message_id, now + DEDUPE_TTL_MS) :: acc.state.dedupe
              threads := r.2.1 } }
    | some e =>
        { trace := acc.trace ++ tagged ++ [(m.message_id, .healthMark "inbound_process" false)]
          ackIds := acc.ackIds ++ (if isPoisonMessageError e then [m.message_id] else [])
          state := { acc.state with threads := r.2.1 } }

/-- One successful-pull cycle: `pruneDedupe()`, then the message loop over
the pulled batch; the result carries the effect trace, the acknowledgment
batch handed to `ackInbox`, and the state for the next cycle.  (The pull and
ack HTTP calls themselves, and their `poll`/`ack` health marks, happen
outside this function.) -/
def runPollCycle (co : CryptoOracle) (po : PolicyOracle) (st : BridgeState)
    (now : Nat) (msgs : List BrokerMessage) : CycleAcc :=
  msgs.foldl (pollCycleStep co po now)
    { trace := [], ackIds := [], state := { st with dedupe := pruneDedupe st.dedupe now } }

def isForwardEffect : Effect → Bool
  | .forwardToAgent _ => true
  | _ => false

def isAttemptEffect : Effect → Bool
  | .processAttemptLog => true
  | _ => false

/-- How many effects satisfying `p` the trace records for `id`. -/
def effectCount (trace : List (String × Effect)) (id : String) (p : Effect → Bool) : Nat :=
  trace.countP (fun te => te.1 == id && p te.2)

/-- A message the pipeline classifies poison: its broker signature fails, or
its ciphertext cannot be decrypted. -/
def poisonInput (co : CryptoOracle) (m : BrokerMessage) : Prop :=
  co.verify m = false ∨ co.sealOpen m = none

/-! ## The local API `/reply` handler (`startApiServer`)

Modelled from request-body validation onward (the loopback check, rate
ceiling and JSON parse of the raw body precede it); `thread_id`/`text` are
`none` when absent or not a string, and the broker send outcome is the
`sendOk`/`sendErr` arguments. -/

structure SendCall where
  action : String
  channel : String
  thread_ts : Option String
  text : String
deriving DecidableEq

structure ReplyOutcome where
  status : Nat
  errorMsg : Option String
  sends : List SendCall
deriving DecidableEq

def handleReply (registry : List (String × ThreadEntry))
    (thread_id text : Option String) (sendOk : Bool) (sendErr : String) : ReplyOutcome :=
  match thread_id with
  | none => ⟨400, some "thread_id must be a non-empty string", []⟩
  | some tid =>
      if tid = "" then ⟨400, some "thread_id must be a non-empty string", []⟩
      else
        match text with
        | none => ⟨400, some "text must be a non-empty string", []⟩
        | some txt =>
            if txt = "" then ⟨400, some "text must be a non-empty string", []⟩
            else
              match lookupA registry tid with
              | none => ⟨404, some ("Unknown thread_id: " ++ tid), []⟩
              | some thread =>
                  if sendOk then
                    ⟨200, none, [⟨"chat.postMessage", thread.channel, some thread.thread_ts, txt⟩]⟩
                  else
                    ⟨500, some sendErr, [⟨"chat.postMessage", thread.channel, some thread.thread_ts, txt⟩]⟩

/-! ## Concrete fixtures for counterexamples and witnesses -/

/-- A message whose envelope verifies and decrypts to a non-`event_callback`
payload: processing succeeds as a no-op. -/
def coNoOp : CryptoOracle :=
  ⟨fun _ => true, fun _ => some "{}", fun _ => some ⟨some "url_verification", none⟩⟩

/-- A broker signature that fails verification (poison). -/
def coBadSig : CryptoOracle := ⟨fun _ => false, fun _ => none, fun _ => none⟩

/-- An envelope that verifies and decrypts, but whose plaintext is not valid
JSON. -/
def coNoJson : CryptoOracle := ⟨fun _ => true, fun _ => some "not json", fun _ => none⟩

def evMention : SlackEvent :=
  ⟨"app_mention", "U1", "C1", "111.222", none, some "hello", none, none, none⟩

/-- A message that verifies and decrypts to an actionable `app_mention`. -/
def coMention : CryptoOracle :=
  ⟨fun _ => true, fun _ => some "{}", fun _ => some ⟨some "event_callback", some evMention⟩⟩

/-- Everything allowed, agent socket present, all sends succeed. -/
def poFix : PolicyOracle :=
  ⟨fun _ => true, fun _ => true, fun s => s, fun s _ => s, some "sock", true, true⟩

def mFix : BrokerMessage := ⟨"m-1", "T1", "enc", 0, "sig"⟩

def mNoId : BrokerMessage := ⟨"", "T1", "enc", 0, "sig"⟩

def stEmpty : BridgeState := ⟨[], emptyThreadState⟩

/-! # Theorems -/

/-! ## C4 — clamping of the wire pull request -/

/-- C4: the wire pull request always carries `max_messages ≤ 100` and
`0 ≤ wait_seconds ≤ 25` regardless of configured values; a configured
`max_messages` of 999 yields 100, a configured `wait_seconds` of -1 yields
0, and any configured `wait_seconds` above 25 yields 25. -/
theorem C4_clamping (cfgMax cfgWait : Option Int) (wsId : String) (ts0 : Int)
    (sig : String) :
    (pullInboxRequest cfgMax cfgWait wsId ts0 sig).max_messages ≤ 100 ∧
    0 ≤ (pullInboxRequest cfgMax cfgWait wsId ts0 sig).wait_seconds ∧
    (pullInboxRequest cfgMax cfgWait wsId ts0 sig).wait_seconds ≤ 25 ∧
    (cfgMax = some 999 → (pullInboxRequest cfgMax cfgWait wsId ts0 sig).max_messages = 100) ∧
    (cfgWait = some (-1) → (pullInboxRequest cfgMax cfgWait wsId ts0 sig).wait_seconds = 0) ∧
    (∀ w : Int, 25 < w → cfgWait = some w →
      (pullInboxRequest cfgMax cfgWait wsId ts0 sig).wait_seconds = 25) := by
  refine ⟨?_, ?_, ?_, ?_, ?_, ?_⟩
  · cases cfgMax <;> simp [pullInboxRequest, MAX_MESSAGES, clampInt]
  · cases cfgWait <;>
      simp [pullInboxRequest, BROKER_WAIT_SECONDS, MAX_WAIT_SECONDS, clampInt]
  · cases cfgWait <;>
      simp [pullInboxRequest, BROKER_WAIT_SECONDS, MAX_WAIT_SECONDS, clampInt]
  · intro h
    subst h
    simp [pullInboxRequest, MAX_MESSAGES, clampInt]
  · intro h
    subst h
    simp [pullInboxRequest, BROKER_WAIT_SECONDS, MAX_WAIT_SECONDS, clampInt]
  · intro w hw h
    subst h
    simp [pullInboxRequest, BROKER_WAIT_SECONDS, MAX_WAIT_SECONDS, clampInt]
    omega

/-- C4 witness: the clamping theorem applied at the configured values 999 and
-1 named by the claim. -/
theorem C4_clamping_witness :
    (pullInboxRequest (some 999) (some (-1)) "T1" 0 "sig").max_messages = 100 ∧
    (pullInboxRequest (some 999) (some (-1)) "T1" 0 "sig").wait_seconds = 0 :=
  ⟨(C4_clamping (some 999) (some (-1)) "T1" 0 "sig").2.2.2.1 rfl,
   (C4_clamping (some 999) (some (-1)) "T1" 0 "sig").2.2.2.2.1 rfl⟩

/-! ## C8 — expired broker token is fatal -/

/-- C8: when the configured token and expiry are present and the parsed
expiry timestamp lies in the past, the startup guard exits with code 1 and
`brokerFetch` exits with code 1 before issuing the HTTP request; no retry
path exists (the outcome is never `httpIssued`). -/
theorem C8_expiredTokenFatal (parseDate : String → Option Int)
    (token expiresAtStr : String) (now t : Int) (baseUrl pathname : String)
    (htok : token ≠ "") (hexp : expiresAtStr ≠ "")
    (hparse : parseDate expiresAtStr = some t) (hpast : t < now) :
    brokerFetch parseDate token expiresAtStr now baseUrl pathname = .exited 1 ∧
    enforceBrokerTokenFreshnessOrExit parseDate token expiresAtStr now = some 1 ∧
    ∀ u, brokerFetch parseDate token expiresAtStr now baseUrl pathname ≠ .httpIssued u := by
  have hx : isBrokerAccessTokenExpired parseDate token expiresAtStr now = true := by
    simp [isBrokerAccessTokenExpired, htok, hexp, hparse]
    omega
  refine ⟨?_, ?_, ?_⟩
  · simp [brokerFetch, enforceBrokerTokenFreshnessOrExit, hx]
  · simp [enforceBrokerTokenFreshnessOrExit, hx]
  · intro u
    simp [brokerFetch, enforceBrokerTokenFreshnessOrExit, hx]

/-- C8 witness: a token with expiry timestamp 5 at current time 10. -/
theorem C8_expiredTokenFatal_witness :
    brokerFetch (fun _ => some 5) "tok" "2020-01-01T00:00:00Z" 10 "https://b" "/api/inbox/pull" =
      .exited 1 :=
  (C8_expiredTokenFatal (fun _ => some 5) "tok" "2020-01-01T00:00:00Z" 10 5 "https://b"
    "/api/inbox/pull" (by decide) (by decide) rfl (by decide)).1

/-! ## C9 — unknown `thread_id` on `/reply` -/

/-- C9 counterexample: a `/reply` request carrying the never-issued
`thread_id` `"thread-9"` together with an empty `text` is answered 400
(naming the text validation), not 404 naming the unknown id — the claim
fails for requests that do not pass body validation. -/
theorem C9_counterexample :
    lookupA ([] : List (String × ThreadEntry)) "thread-9" = none ∧
    handleReply [] (some "thread-9") (some "") true "send failed" =
      ⟨400, some "text must be a non-empty string", []⟩ ∧
    (handleReply [] (some "thread-9") (some "") true "send failed").status ≠ 404 := by
  decide

/-- C9 amended: every `/reply` request that passes body validation (both
`thread_id` and `text` are non-empty strings) and whose `thread_id` is not
in the thread registry — evicted or never issued — is answered with HTTP 404,
an error message naming the unknown id, and no outbound broker send. -/
theorem C9_amended (registry : List (String × ThreadEntry)) (tid txt : String)
    (sendOk : Bool) (sendErr : String)
    (h1 : tid ≠ "") (h2 : txt ≠ "") (h3 : lookupA registry tid = none) :
    handleReply registry (some tid) (some txt) sendOk sendErr =
      ⟨404, some ("Unknown thread_id: " ++ tid), []⟩ := by
  simp [handleReply, h1, h2, h3]

/-- C9 witness: an evicted-or-never-issued id against an empty registry. -/
theorem C9_amended_witness :
    handleReply [] (some "thread-7") (some "hi") true "send failed" =
      ⟨404, some ("Unknown thread_id: " ++ "thread-7"), []⟩ :=
  C9_amended [] "thread-7" "hi" true "send failed" (by decide) (by decide) rfl

/-! ## C10 — messages without a `message_id` are skipped entirely -/

/-- C10: a pulled message whose `message_id` is missing or empty leaves the
poll-cycle accumulator unchanged except for one warning log line: it is not
verified, not decrypted, not forwarded, not entered into the dedupe map and
not queued for acknowledgment. -/
theorem C10_skipNoMessageId (co : CryptoOracle) (po : PolicyOracle) (now : Nat)
    (acc : CycleAcc) (m : BrokerMessage) (h : m.message_id = "") :
    pollCycleStep co po now acc m =
      { acc with trace := acc.trace ++ [(m.message_id, .skippedNoIdLog)] } := by
  unfold pollCycleStep
  rw [if_pos h]

/-- C10 witness: the skip behaviour at a concrete empty-id message. -/
theorem C10_skipNoMessageId_witness :
    pollCycleStep coNoOp poFix 0 { trace := [], ackIds := [], state := stEmpty } mNoId =
      { trace := [("", .skippedNoIdLog)], ackIds := [], state := stEmpty } :=
  C10_skipNoMessageId coNoOp poFix 0 { trace := [], ackIds := [], state := stEmpty } mNoId rfl

/-! ## C5 — backoff monotonicity -/

theorem POLL_INTERVAL_MS_nonneg (cfg : Option Int) : 0 ≤ POLL_INTERVAL_MS cfg := by
  cases cfg <;> simp [POLL_INTERVAL_MS, clampInt]

theorem failureSleep_le_cap (base : Int) (hb : base ≤ MAX_BACKOFF_MS) (k : Nat) :
    failureSleep base k ≤ MAX_BACKOFF_MS := by
  cases k with
  | zero => exact hb
  | succ n => exact min_le_left _ _

theorem base_le_failureSleep (base : Int) (hb : base ≤ MAX_BACKOFF_MS) (k : Nat) :
    base ≤ failureSleep base k := by
  induction k with
  | zero => exact le_refl _
  | succ n _ => exact le_min hb (le_max_left _ _)

theorem failureSleep_mono_succ (base : Int) (hb0 : 0 ≤ base) (hb : base ≤ MAX_BACKOFF_MS)
    (k : Nat) : failureSleep base k ≤ failureSleep base (k + 1) := by
  have h1 : failureSleep base k ≤ MAX_BACKOFF_MS := failureSleep_le_cap base hb k
  have h2 : 0 ≤ failureSleep base k := le_trans hb0 (base_le_failureSleep base hb k)
  have h3 : failureSleep base k ≤ max base (2 * failureSleep base k) :=
    le_trans (by omega) (le_max_right base (2 * failureSleep base k))
  exact le_min h1 h3

theorem failureSleep_succ_eq (base : Int) (hb0 : 0 ≤ base) (hb : base ≤ MAX_BACKOFF_MS)
    (k : Nat) : failureSleep base (k + 1) = min MAX_BACKOFF_MS (2 * failureSleep base k) := by
  have h2 : base ≤ 2 * failureSleep base k := by
    have := base_le_failureSleep base hb k
    omega
  show min MAX_BACKOFF_MS (max base (2 * failureSleep base k)) = _
  rw [max_eq_right h2]

/-- A run of `N` consecutive failed iterations starting from backoff value
`failureSleep base j` sleeps `failureSleep base (j+k)` at its `k`-th
iteration and ends with backoff value `failureSleep base (j+N)`. -/
theorem loopRun_replicate_false (base w : Int) (N : Nat) : ∀ j : Nat,
    (loopRun base w ⟨failureSleep base j⟩ (List.replicate N false)).1 =
      (List.range N).map (fun k => failureSleep base (j + k)) ∧
    (loopRun base w ⟨failureSleep base j⟩ (List.replicate N false)).2 =
      ⟨failureSleep base (j + N)⟩ := by
  induction N with
  | zero => intro j; simp [loopRun]
  | succ n ih =>
      intro j
      have hrep : List.replicate (n + 1) false = false :: List.replicate n false := rfl
      have hstep :
          loopRun base w ⟨failureSleep base j⟩ (false :: List.replicate n false) =
            (failureSleep base j ::
                (loopRun base w ⟨failureSleep base (j + 1)⟩ (List.replicate n false)).1,
             (loopRun base w ⟨failureSleep base (j + 1)⟩ (List.replicate n false)).2) := by
        simp [loopRun, loopStep, failureSleep]
      rw [hrep, hstep, (ih (j + 1)).1, (ih (j + 1)).2]
      constructor
      · rw [List.range_succ_eq_map, List.map_cons, List.map_map]
        simp [Function.comp, Nat.add_comm, Nat.add_assoc, Nat.add_left_comm]
      · simp [Nat.add_comm, Nat.add_assoc, Nat.add_left_comm]

theorem loopRun_append (base w : Int) : ∀ (l1 l2 : List Bool) (st : LoopSim),
    loopRun base w st (l1 ++ l2) =
      ((loopRun base w st l1).1 ++ (loopRun base w (loopRun base w st l1).2 l2).1,
       (loopRun base w (loopRun base w st l1).2 l2).2) := by
  intro l1
  induction l1 with
  | nil => intro l2 st; simp [loopRun]
  | cons o rest ih =>
      intro l2 st
      simp only [List.cons_append, loopRun, List.append_eq]
      rw [ih]
      simp [List.append_assoc]

/-- C5 counterexample: with the admissible configured poll interval 60000 ms
(the clamp allows up to 60 s), two consecutive failures sleep 60000 ms then
30000 ms — the sequence is decreasing and its first element exceeds the 30 s
cap, refuting both the monotonicity and the cap as claimed. -/
theorem C5_counterexample :
    POLL_INTERVAL_MS (some 60000) = 60000 ∧
    (loopRun 60000 20 ⟨60000⟩ [false, false]).1 = [60000, 30000] ∧
    ¬ List.Chain' (fun a b : Int => a ≤ b) [(60000 : Int), 30000] ∧
    ¬ (∀ s ∈ [(60000 : Int), 30000], s ≤ MAX_BACKOFF_MS) := by
  refine ⟨by decide, by decide, ?_, ?_⟩
  · intro hch
    rw [List.chain'_cons] at hch
    omega
  · intro hall
    have h := hall 60000 (by simp)
    rw [MAX_BACKOFF_MS] at h
    omega

/-- C5 amended: when the configured poll interval is at most the 30 s backoff
ceiling, a run of `N` consecutive failed iterations (starting from a reset
state) sleeps the non-decreasing sequence `failureSleep base 0, ...,
failureSleep base (N-1)`, which starts at the configured interval, doubles
per consecutive failure up to the 30 s cap, and stays at most 30 s; the next
fully successful iteration resets the backoff to the base interval.  (A
configured interval above 30 s makes the first failure sleep the full
interval, after which the backoff drops to the 30 s ceiling.) -/
theorem C5_amended (cfg : Option Int) (w : Int) (N : Nat)
    (hcap : POLL_INTERVAL_MS cfg ≤ MAX_BACKOFF_MS) :
    let base := POLL_INTERVAL_MS cfg
    let sleeps := (loopRun base w ⟨base⟩ (List.replicate N false)).1
    sleeps = (List.range N).map (failureSleep base) ∧
    List.Chain' (fun a b => a ≤ b) sleeps ∧
    (∀ s ∈ sleeps, s ≤ MAX_BACKOFF_MS) ∧
    (0 < N → sleeps.head? = some base) ∧
    (∀ k, failureSleep base (k + 1) = min MAX_BACKOFF_MS (2 * failureSleep base k)) ∧
    (loopRun base w ⟨base⟩ (List.replicate N false ++ [true])).2 = ⟨base⟩ := by
  intro base sleeps
  have hb0 : 0 ≤ base := POLL_INTERVAL_MS_nonneg cfg
  have hrun := loopRun_replicate_false base w N 0
  have hzero : (⟨base⟩ : LoopSim) = ⟨failureSleep base 0⟩ := rfl
  have hseq : sleeps = (List.range N).map (failureSleep base) := by
    show (loopRun base w ⟨base⟩ (List.replicate N false)).1 = _
    rw [hzero, hrun.1]
    simp
  refine ⟨hseq, ?_, ?_, ?_, ?_, ?_⟩
  · rw [hseq, List.chain'_map]
    cases N with
    | zero => simp
    | succ n =>
        rw [List.chain'_range_succ]
        intro m _
        exact failureSleep_mono_succ base hb0 hcap m
  · intro s hs
    rw [hseq] at hs
    obtain ⟨k, _, rfl⟩ := List.mem_map.mp hs
    exact failureSleep_le_cap base hcap k
  · intro hN
    rw [hseq]
    cases N with
    | zero => omega
    | succ n => rw [List.range_succ_eq_map]; rfl
  · intro k
    exact failureSleep_succ_eq base hb0 hcap k
  · rw [loopRun_append]
    simp [loopRun, loopStep]

/-- C5 witness: the amended backoff theorem at the default 3000 ms interval
over two consecutive failures. -/
theorem C5_amended_witness :
    (loopRun (POLL_INTERVAL_MS (some 3000)) 20 ⟨POLL_INTERVAL_MS (some 3000)⟩
        (List.replicate 2 false)).1 =
      (List.range 2).map (failureSleep (POLL_INTERVAL_MS (some 3000))) := by
  have h := C5_amended (some 3000) 20 2 (by decide)
  exact h.1

/-! ## C7 — health recorder totality and atomicity -/

/-- C7 counterexample: `markHealth` contains no `try`/`catch`, so a failing
persist propagates out of it — it does throw. -/
theorem C7_counterexample :
    markHealth (.error "EIO") "/home/u" 7 initialBrokerHealth "poll" true none =
      .error "EIO" ∧
    ∀ r, markHealth (.error "EIO") "/home/u" 7 initialBrokerHealth "poll" true none ≠
      .ok r := by
  refine ⟨rfl, ?_⟩
  intro r h
  simp [markHealth, persistBrokerHealth] at h

/-- C7 amended: for each of the five stages and both outcomes, `markHealth`
updates the matching sub-record (leaving the others unchanged) and persists
the whole record by writing a temporary file and renaming it over the final
path; but a persistence failure is NOT swallowed — the exception propagates
to `markHealth`'s caller. -/
theorem C7_amended (home : String) (now : Nat) (h : BrokerHealth)
    (err : Option String) (e : String) (b : Bool) :
    (∀ sec ∈ (["poll", "inbound_decrypt", "inbound_process", "ack", "outbound"] : List String),
      (∃ h2 : BrokerHealth,
        markHealth (.ok ()) home now h sec b err =
          .ok (h2,
            [.mkdirRecursive (brokerHealthDir home),
             .writeFile (brokerHealthTmp home) h2,
             .renameFile (brokerHealthTmp home) (brokerHealthPath home)]) ∧
        h2.updated_at = some now) ∧
      markHealth (.error e) home now h sec b err = .error e) ∧
    (∃ h2 acts, markHealth (.ok ()) home now h "poll" true err = .ok (h2, acts) ∧
      h2.poll.last_ok_at = some now ∧ h2.poll.consecutive_failures = 0 ∧
      h2.poll.last_error = none ∧
      h2.inbound = h.inbound ∧ h2.ack = h.ack ∧ h2.outbound = h.outbound) ∧
    (∃ h2 acts, markHealth (.ok ()) home now h "poll" false err = .ok (h2, acts) ∧
      h2.poll.last_error_at = some now ∧
      h2.poll.consecutive_failures = h.poll.consecutive_failures + 1 ∧
      h2.poll.last_error = some (trimError err) ∧
      h2.inbound = h.inbound ∧ h2.ack = h.ack ∧ h2.outbound = h.outbound) ∧
    (∃ h2 acts, markHealth (.ok ()) home now h "inbound_decrypt" true err = .ok (h2, acts) ∧
      h2.inbound.last_decrypt_ok_at = some now ∧ h2.poll = h.poll ∧
      h2.ack = h.ack ∧ h2.outbound = h.outbound) ∧
    (∃ h2 acts, markHealth (.ok ()) home now h "inbound_decrypt" false err = .ok (h2, acts) ∧
      h2.inbound.last_decrypt_error_at = some now ∧
      h2.inbound.last_error = some (trimError err) ∧ h2.poll = h.poll) ∧
    (∃ h2 acts, markHealth (.ok ()) home now h "inbound_process" true err = .ok (h2, acts) ∧
      h2.inbound.last_process_ok_at = some now ∧ h2.poll = h.poll) ∧
    (∃ h2 acts, markHealth (.ok ()) home now h "inbound_process" false err = .ok (h2, acts) ∧
      h2.inbound.last_process_error_at = some now ∧
      h2.inbound.last_error = some (trimError err) ∧ h2.poll = h.poll) ∧
    (∃ h2 acts, markHealth (.ok ()) home now h "ack" true err = .ok (h2, acts) ∧
      h2.ack.last_ok_at = some now ∧ h2.ack.last_error = none ∧
      h2.poll = h.poll ∧ h2.inbound = h.inbound ∧ h2.outbound = h.outbound) ∧
    (∃ h2 acts, markHealth (.ok ()) home now h "ack" false err = .ok (h2, acts) ∧
      h2.ack.last_error_at = some now ∧ h2.ack.last_error = some (trimError err) ∧
      h2.poll = h.poll) ∧
    (∃ h2 acts, markHealth (.ok ()) home now h "outbound" true err = .ok (h2, acts) ∧
      h2.outbound.last_ok_at = some now ∧ h2.outbound.last_error = none ∧
      h2.poll = h.poll ∧ h2.inbound = h.inbound ∧ h2.ack = h.ack) ∧
    (∃ h2 acts, markHealth (.ok ()) home now h "outbound" false err = .ok (h2, acts) ∧
      h2.outbound.last_error_at = some now ∧
      h2.outbound.last_error = some (trimError err) ∧ h2.poll = h.poll) := by
  refine ⟨?_, ?_, ?_, ?_, ?_, ?_, ?_, ?_, ?_, ?_, ?_⟩
  · intro sec hsec
    fin_cases hsec <;> cases b <;>
      exact ⟨⟨_, rfl, rfl⟩, rfl⟩
  all_goals refine ⟨_, _, rfl, ?_⟩
  all_goals repeat' apply And.intro
  all_goals rfl

/-- C7 witness: the amended theorem at a concrete record — a failing persist
propagates, and a successful `poll` mark persists atomically. -/
theorem C7_amended_witness :
    markHealth (.error "EIO") "/h" 3 initialBrokerHealth "poll" true none =
      .error "EIO" ∧
    ∃ h2 acts, markHealth (.ok ()) "/h" 3 initialBrokerHealth "poll" true none =
      .ok (h2, acts) :=
  ⟨((C7_amended "/h" 3 initialBrokerHealth none "EIO" true).1 "poll" (by simp)).2,
   ((C7_amended "/h" 3 initialBrokerHealth none "EIO" true).2.1).elim
     (fun h2 hh => hh.elim (fun acts ha => ⟨h2, acts, ha.1⟩))⟩

/-! ## Pipeline lemmas shared by C1, C2 and C3 -/

theorem effectCount_append (t1 t2 : List (String × Effect)) (id : String)
    (p : Effect → Bool) :
    effectCount (t1 ++ t2) id p = effectCount t1 id p + effectCount t2 id p := by
  simp [effectCount, List.countP_append]

theorem sayEffects_countP_forward (po : PolicyOracle) (c t ts : String) :
    (sayEffects po c t ts).1.countP isForwardEffect = 0 := by
  by_cases hb : po.brokerSendOk <;>
    simp [sayEffects, hb, isForwardEffect, List.countP_cons, List.countP_nil]

theorem sayEffects_countP_attempt (po : PolicyOracle) (c t ts : String) :
    (sayEffects po c t ts).1.countP isAttemptEffect = 0 := by
  by_cases hb : po.brokerSendOk <;>
    simp [sayEffects, hb, isAttemptEffect, List.countP_cons, List.countP_nil]

theorem handleUserMessage_countP_forward (po : PolicyOracle) (th : ThreadState)
    (um : String) (ev : SlackEvent) (now : Nat) :
    (handleUserMessage po th um ev now).1.countP isForwardEffect ≤ 1 := by
  unfold handleUserMessage
  repeat'
    first
      | split
      | dsimp only
  all_goals
    simp [sayEffects_countP_forward, isForwardEffect, List.countP_cons, List.countP_nil]

theorem handleUserMessage_countP_attempt (po : PolicyOracle) (th : ThreadState)
    (um : String) (ev : SlackEvent) (now : Nat) :
    (handleUserMessage po th um ev now).1.countP isAttemptEffect = 0 := by
  unfold handleUserMessage
  repeat'
    first
      | split
      | dsimp only
  all_goals
    simp [sayEffects_countP_attempt, isAttemptEffect, List.countP_cons, List.countP_nil]

theorem processPulledMessage_countP_forward (co : CryptoOracle) (po : PolicyOracle)
    (th : ThreadState) (m : BrokerMessage) (now : Nat) :
    (processPulledMessage co po th m now).1.countP isForwardEffect ≤ 1 := by
  unfold processPulledMessage
  repeat'
    first
      | split
      | dsimp only
  all_goals
    simp [handleUserMessage_countP_forward, sayEffects_countP_forward, isForwardEffect,
      List.countP_cons, List.countP_nil, List.countP_append]

theorem processPulledMessage_countP_attempt (co : CryptoOracle) (po : PolicyOracle)
    (th : ThreadState) (m : BrokerMessage) (now : Nat) :
    (processPulledMessage co po th m now).1.countP isAttemptEffect = 0 := by
  unfold processPulledMessage
  repeat'
    first
      | split
      | dsimp only
  all_goals
    simp [handleUserMessage_countP_attempt, sayEffects_countP_attempt, isAttemptEffect,
      List.countP_cons, List.countP_nil, List.countP_append]

/-- Counting over a trace whose entries are all tagged with the counted id. -/
theorem effectCount_map_tag (l : List Effect) (id : String) (p : Effect → Bool) :
    effectCount (l.map (fun e => (id, e))) id p = l.countP p := by
  simp only [effectCount, List.countP_map]
  congr 1
  funext e
  simp

/-- Counting over a trace whose entries are all tagged with a different id. -/
theorem effectCount_map_tag_ne (l : List Effect) (mid id : String) (hne : mid ≠ id)
    (p : Effect → Bool) :
    effectCount (l.map (fun e => (mid, e))) id p = 0 := by
  simp only [effectCount, List.countP_map]
  have : ((fun te : String × Effect => te.1 == id && p te.2) ∘ (fun e => (mid, e))) =
      fun _ => false := by
    funext e
    simp [hne]
  rw [this]
  simp

/-- A poison input makes `processPulledMessage` throw a poison-classified
error before any dispatch, with no forward effect. -/
theorem processPulledMessage_poison (co : CryptoOracle) (po : PolicyOracle)
    (th : ThreadState) (m : BrokerMessage) (now : Nat) (hp : poisonInput co m) :
    ∃ e, (processPulledMessage co po th m now).2.2 = some e ∧
      isPoisonMessageError e = true ∧
      (processPulledMessage co po th m now).1.countP isForwardEffect = 0 ∧
      (processPulledMessage co po th m now).2.1 = th := by
  rcases hp with hv | hs
  · refine ⟨.invalidSignature, ?_⟩
    simp [processPulledMessage, hv, isPoisonMessageError, isForwardEffect,
      List.countP_cons, List.countP_nil]
  · by_cases hv : co.verify m
    · refine ⟨.decryptFailed m.message_id, ?_⟩
      simp [processPulledMessage, hv, hs, isPoisonMessageError, isForwardEffect,
        List.countP_cons, List.countP_nil]
    · refine ⟨.invalidSignature, ?_⟩
      simp only [Bool.not_eq_true] at hv
      simp [processPulledMessage, hv, isPoisonMessageError, isForwardEffect,
        List.countP_cons, List.countP_nil]

/-- The fresh-and-successful step: process, mark health ok, remember the id
in the dedupe map, queue the ack. -/
theorem pollCycleStep_fresh (co : CryptoOracle) (po : PolicyOracle) (now : Nat)
    (acc : CycleAcc) (m : BrokerMessage)
    (hid : m.message_id ≠ "")
    (hfr : lookupA acc.state.dedupe m.message_id = none)
    (hsucc : (processPulledMessage co po acc.state.threads m now).2.2 = none) :
    pollCycleStep co po now acc m =
      { trace := acc.trace ++
          ((m.message_id, Effect.processAttemptLog) ::
            (processPulledMessage co po acc.state.threads m now).1.map
              (fun e => (m.message_id, e))) ++
          [(m.message_id, .healthMark "inbound_process" true)],
        ackIds := acc.ackIds ++ [m.message_id],
        state := { dedupe := (m.message_id, now + DEDUPE_TTL_MS) :: acc.state.dedupe,
                   threads := (processPulledMessage co po acc.state.threads m now).2.1 } } := by
  unfold pollCycleStep
  rw [if_neg hid, hfr]
  simp [hsucc, List.append_assoc]

/-- The fresh-but-throwing step: mark health failed, queue the ack only for
poison errors, do not remember the id. -/
theorem pollCycleStep_fresh_err (co : CryptoOracle) (po : PolicyOracle) (now : Nat)
    (acc : CycleAcc) (m : BrokerMessage) (e : BridgeError)
    (hid : m.message_id ≠ "")
    (hfr : lookupA acc.state.dedupe m.message_id = none)
    (herr : (processPulledMessage co po acc.state.threads m now).2.2 = some e) :
    pollCycleStep co po now acc m =
      { trace := acc.trace ++
          ((m.message_id, Effect.processAttemptLog) ::
            (processPulledMessage co po acc.state.threads m now).1.map
              (fun e2 => (m.message_id, e2))) ++
          [(m.message_id, .healthMark "inbound_process" false)],
        ackIds := acc.ackIds ++ (if isPoisonMessageError e then [m.message_id] else []),
        state := { acc.state with
                   threads := (processPulledMessage co po acc.state.threads m now).2.1 } } := by
  unfold pollCycleStep
  rw [if_neg hid, hfr]
  simp [herr, List.append_assoc]

/-- The dedupe-hit step: re-verify, re-acknowledge, never re-process. -/
theorem pollCycleStep_dedupeHit (co : CryptoOracle) (po : PolicyOracle) (now : Nat)
    (acc : CycleAcc) (m : BrokerMessage)
    (hid : m.message_id ≠ "")
    (hd : (lookupA acc.state.dedupe m.message_id).isSome = true) :
    (pollCycleStep co po now acc m).ackIds = acc.ackIds ++ [m.message_id] ∧
    (pollCycleStep co po now acc m).trace = acc.trace ++
      (if co.verify m then [(m.message_id, Effect.verifyCall)]
       else [(m.message_id, Effect.verifyCall), (m.message_id, .dupBadSigLog)]) ∧
    (pollCycleStep co po now acc m).state = acc.state := by
  unfold pollCycleStep
  rw [if_neg hid, if_pos hd]
  by_cases hv : co.verify m <;> simp [hv]

theorem pollCycleStep_ack_mono (co : CryptoOracle) (po : PolicyOracle) (now : Nat)
    (acc : CycleAcc) (m : BrokerMessage) (x : String) (h : x ∈ acc.ackIds) :
    x ∈ (pollCycleStep co po now acc m).ackIds := by
  unfold pollCycleStep
  repeat'
    first
      | split
      | dsimp only
  all_goals simp [List.mem_append, h]

theorem pollCycleStep_poison_ack (co : CryptoOracle) (po : PolicyOracle) (now : Nat)
    (acc : CycleAcc) (m : BrokerMessage)
    (hid : m.message_id ≠ "") (hp : poisonInput co m) :
    m.message_id ∈ (pollCycleStep co po now acc m).ackIds := by
  unfold pollCycleStep
  rw [if_neg hid]
  by_cases hd : (lookupA acc.state.dedupe m.message_id).isSome
  · rw [if_pos hd]
    split <;> simp
  · rw [if_neg hd]
    obtain ⟨e, he, hpe, _, _⟩ := processPulledMessage_poison co po acc.state.threads m now hp
    simp [he, hpe]

/-- No step adds a forward effect for `id` as long as every message carrying
`id` itself is a poison input. -/
theorem pollCycleStep_poison_no_forward (co : CryptoOracle) (po : PolicyOracle)
    (now : Nat) (acc : CycleAcc) (m : BrokerMessage) (id : String) (hid : id ≠ "")
    (hp : m.message_id = id → poisonInput co m) :
    effectCount (pollCycleStep co po now acc m).trace id isForwardEffect =
      effectCount acc.trace id isForwardEffect := by
  by_cases hm : m.message_id = ""
  · unfold pollCycleStep
    rw [if_pos hm]
    simp [effectCount, List.countP_append, List.countP_cons, List.countP_nil, isForwardEffect]
  · rcases hcase : lookupA acc.state.dedupe m.message_id with _ | v
    · by_cases hmid : m.message_id = id
      · obtain ⟨e, he, _, hfc, _⟩ :=
          processPulledMessage_poison co po acc.state.threads m now (hp hmid)
        rw [pollCycleStep_fresh_err co po now acc m e hm hcase he, effectCount_append,
          effectCount_append]
        subst hmid
        have hmap := effectCount_map_tag
          (processPulledMessage co po acc.state.threads m now).1 m.message_id isForwardEffect
        simp [effectCount_append, effectCount, List.countP_cons, List.countP_nil,
          isForwardEffect, hmap, hfc]
        intro a ha
        simpa [isForwardEffect] using List.countP_eq_zero.mp hfc a ha
      · rcases hcase2 : (processPulledMessage co po acc.state.threads m now).2.2 with _ | e
        · rw [pollCycleStep_fresh co po now acc m hm hcase hcase2, effectCount_append,
            effectCount_append]
          have hmap := effectCount_map_tag_ne
            (processPulledMessage co po acc.state.threads m now).1 m.message_id id hmid
            isForwardEffect
          simp [effectCount, List.countP_cons, List.countP_nil, isForwardEffect, hmap, hmid]
        · rw [pollCycleStep_fresh_err co po now acc m e hm hcase hcase2, effectCount_append,
            effectCount_append]
          have hmap := effectCount_map_tag_ne
            (processPulledMessage co po acc.state.threads m now).1 m.message_id id hmid
            isForwardEffect
          simp [effectCount, List.countP_cons, List.countP_nil, isForwardEffect, hmap, hmid]
    · have hd : (lookupA acc.state.dedupe m.message_id).isSome = true := by
        rw [hcase]; rfl
      obtain ⟨_, htr, _⟩ := pollCycleStep_dedupeHit co po now acc m hm hd
      rw [htr, effectCount_append]
      by_cases hv : co.verify m <;>
        simp [hv, effectCount, List.countP_cons, List.countP_nil, isForwardEffect]

theorem foldl_ack_mono (co : CryptoOracle) (po : PolicyOracle) (now : Nat) :
    ∀ (msgs : List BrokerMessage) (acc : CycleAcc) (x : String), x ∈ acc.ackIds →
      x ∈ (msgs.foldl (pollCycleStep co po now) acc).ackIds := by
  intro msgs
  induction msgs with
  | nil => intro acc x h; exact h
  | cons a rest ih =>
      intro acc x h
      exact ih _ x (pollCycleStep_ack_mono co po now acc a x h)

theorem foldl_poison_ack (co : CryptoOracle) (po : PolicyOracle) (now : Nat) :
    ∀ (msgs : List BrokerMessage) (acc : CycleAcc) (m : BrokerMessage), m ∈ msgs →
      m.message_id ≠ "" → poisonInput co m →
      m.message_id ∈ (msgs.foldl (pollCycleStep co po now) acc).ackIds := by
  intro msgs
  induction msgs with
  | nil => intro _ _ h; cases h
  | cons a rest ih =>
      intro acc m hmem hid hp
      rcases List.mem_cons.mp hmem with rfl | hmem2
      · exact foldl_ack_mono co po now rest _ _
          (pollCycleStep_poison_ack co po now acc m hid hp)
      · exact ih _ m hmem2 hid hp

theorem foldl_poison_no_forward (co : CryptoOracle) (po : PolicyOracle) (now : Nat)
    (id : String) (hid : id ≠ "") :
    ∀ (msgs : List BrokerMessage) (acc : CycleAcc),
      (∀ m2 ∈ msgs, m2.message_id = id → poisonInput co m2) →
      effectCount (msgs.foldl (pollCycleStep co po now) acc).trace id isForwardEffect =
        effectCount acc.trace id isForwardEffect := by
  intro msgs
  induction msgs with
  | nil => intro acc _; rfl
  | cons a rest ih =>
      intro acc hall
      rw [List.foldl_cons, ih _ (fun m2 hm2 => hall m2 (List.mem_cons_of_mem a hm2))]
      exact pollCycleStep_poison_no_forward co po now acc a id hid
        (fun hmid => hall a (List.mem_cons_self a rest) hmid)

/-! ## C1 — idempotent delivery -/

/-- C1 counterexample: a message that decrypts to a non-`event_callback`
payload is processed successfully (a no-op) on its first pull and is in the
ack batch of both pull cycles inside the dedupe TTL, yet the agent transport
receives ZERO forward calls, not exactly one. -/
theorem C1_counterexample :
    (processPulledMessage coNoOp poFix stEmpty.threads mFix 0).2.2 = none ∧
    "m-1" ∈ (runPollCycle coNoOp poFix stEmpty 0 [mFix]).ackIds ∧
    "m-1" ∈ (runPollCycle coNoOp poFix
      (runPollCycle coNoOp poFix stEmpty 0 [mFix]).state 1 [mFix]).ackIds ∧
    effectCount ((runPollCycle coNoOp poFix stEmpty 0 [mFix]).trace ++
        (runPollCycle coNoOp poFix
          (runPollCycle coNoOp poFix stEmpty 0 [mFix]).state 1 [mFix]).trace)
      "m-1" isForwardEffect = 0 ∧
    ¬ (effectCount ((runPollCycle coNoOp poFix stEmpty 0 [mFix]).trace ++
        (runPollCycle coNoOp poFix
          (runPollCycle coNoOp poFix stEmpty 0 [mFix]).state 1 [mFix]).trace)
      "m-1" isForwardEffect = 1) := by
  decide

/-- C1 amended: for a message id pulled in two cycles within the dedupe TTL
whose first pull was processed successfully, the agent transport receives at
most one forward call — exactly the forwards of the first processing, and
none at all from the redelivery cycle — while the id is included in the ack
batch of both cycles. -/
theorem C1_amended (co : CryptoOracle) (po : PolicyOracle) (st : BridgeState)
    (m : BrokerMessage) (now1 now2 : Nat)
    (hid : m.message_id ≠ "")
    (hfresh : lookupA (pruneDedupe st.dedupe now1) m.message_id = none)
    (hsucc : (processPulledMessage co po st.threads m now1).2.2 = none)
    (httl : now2 < now1 + DEDUPE_TTL_MS) :
    effectCount (runPollCycle co po (runPollCycle co po st now1 [m]).state now2 [m]).trace
      m.message_id isForwardEffect = 0 ∧
    effectCount ((runPollCycle co po st now1 [m]).trace ++
        (runPollCycle co po (runPollCycle co po st now1 [m]).state now2 [m]).trace)
      m.message_id isForwardEffect ≤ 1 ∧
    m.message_id ∈ (runPollCycle co po st now1 [m]).ackIds ∧
    m.message_id ∈ (runPollCycle co po (runPollCycle co po st now1 [m]).state now2 [m]).ackIds := by
  have hrun1 : runPollCycle co po st now1 [m] =
      pollCycleStep co po now1
        { trace := [], ackIds := [],
          state := { st with dedupe := pruneDedupe st.dedupe now1 } } m := rfl
  have hstep1 := pollCycleStep_fresh co po now1
    { trace := [], ackIds := [],
      state := { st with dedupe := pruneDedupe st.dedupe now1 } } m hid hfresh hsucc
  have hc1 : runPollCycle co po st now1 [m] =
      { trace := [] ++
          ((m.message_id, Effect.processAttemptLog) ::
            (processPulledMessage co po st.threads m now1).1.map (fun e => (m.message_id, e))) ++
          [(m.message_id, .healthMark "inbound_process" true)],
        ackIds := [] ++ [m.message_id],
        state := { dedupe := (m.message_id, now1 + DEDUPE_TTL_MS) :: pruneDedupe st.dedupe now1,
                   threads := (processPulledMessage co po st.threads m now1).2.1 } } := by
    rw [hrun1, hstep1]
  have hprune2 : pruneDedupe ((m.message_id, now1 + DEDUPE_TTL_MS) ::
      pruneDedupe st.dedupe now1) now2 =
      (m.message_id, now1 + DEDUPE_TTL_MS) ::
        pruneDedupe (pruneDedupe st.dedupe now1) now2 := by
    simp only [pruneDedupe, List.filter_cons]
    rw [if_pos]
    simp
    omega
  have hrun2 : runPollCycle co po (runPollCycle co po st now1 [m]).state now2 [m] =
      pollCycleStep co po now2
        { trace := [], ackIds := [],
          state := { dedupe := (m.message_id, now1 + DEDUPE_TTL_MS) ::
                       pruneDedupe (pruneDedupe st.dedupe now1) now2,
                     threads := (processPulledMessage co po st.threads m now1).2.1 } } m := by
    rw [hc1]
    show pollCycleStep co po now2
        { trace := [], ackIds := [],
          state := { dedupe := pruneDedupe ((m.message_id, now1 + DEDUPE_TTL_MS) ::
                       pruneDedupe st.dedupe now1) now2,
                     threads := (processPulledMessage co po st.threads m now1).2.1 } } m = _
    rw [hprune2]
  have hd2 : (lookupA ((m.message_id, now1 + DEDUPE_TTL_MS) ::
      pruneDedupe (pruneDedupe st.dedupe now1) now2) m.message_id).isSome = true := by
    simp [lookupA]
  obtain ⟨hack2, htr2, _⟩ := pollCycleStep_dedupeHit co po now2
    { trace := [], ackIds := [],
      state := { dedupe := (m.message_id, now1 + DEDUPE_TTL_MS) ::
                   pruneDedupe (pruneDedupe st.dedupe now1) now2,
                 threads := (processPulledMessage co po st.threads m now1).2.1 } } m hid hd2
  have hc2trace : (runPollCycle co po (runPollCycle co po st now1 [m]).state now2 [m]).trace =
      (if co.verify m then [(m.message_id, Effect.verifyCall)]
       else [(m.message_id, Effect.verifyCall), (m.message_id, .dupBadSigLog)]) := by
    rw [hrun2, htr2]
    simp
  have hc2zero : effectCount
      (runPollCycle co po (runPollCycle co po st now1 [m]).state now2 [m]).trace
      m.message_id isForwardEffect = 0 := by
    rw [hc2trace]
    by_cases hv : co.verify m <;>
      simp [hv, effectCount, List.countP_cons, List.countP_nil, isForwardEffect]
  have hc1count : effectCount (runPollCycle co po st now1 [m]).trace
      m.message_id isForwardEffect ≤ 1 := by
    rw [hc1]
    rw [List.nil_append, effectCount_append]
    have h1 : effectCount [(m.message_id, Effect.healthMark "inbound_process" true)]
        m.message_id isForwardEffect = 0 := by
      simp [effectCount, List.countP_cons, List.countP_nil, isForwardEffect]
    have h2 : effectCount ((m.message_id, Effect.processAttemptLog) ::
        (processPulledMessage co po st.threads m now1).1.map (fun e => (m.message_id, e)))
        m.message_id isForwardEffect =
        effectCount ((processPulledMessage co po st.threads m now1).1.map
          (fun e => (m.message_id, e))) m.message_id isForwardEffect := by
      simp [effectCount, List.countP_cons, isForwardEffect]
    rw [h1, h2, effectCount_map_tag]
    have hle := processPulledMessage_countP_forward co po st.threads m now1
    omega
  refine ⟨hc2zero, ?_, ?_, ?_⟩
  · rw [effectCount_append, hc2zero]
    omega
  · rw [hc1]
    simp
  · rw [hrun2, hack2]
    simp

/-- C1 witness: a forwarded `app_mention` pulled in two cycles — the amended
theorem applied at a concrete actionable message. -/
theorem C1_amended_witness :
    effectCount (runPollCycle coMention poFix
        (runPollCycle coMention poFix stEmpty 0 [mFix]).state 1 [mFix]).trace
      "m-1" isForwardEffect = 0 ∧
    effectCount ((runPollCycle coMention poFix stEmpty 0 [mFix]).trace ++
        (runPollCycle coMention poFix
          (runPollCycle coMention poFix stEmpty 0 [mFix]).state 1 [mFix]).trace)
      "m-1" isForwardEffect ≤ 1 ∧
    "m-1" ∈ (runPollCycle coMention poFix stEmpty 0 [mFix]).ackIds ∧
    "m-1" ∈ (runPollCycle coMention poFix
      (runPollCycle coMention poFix stEmpty 0 [mFix]).state 1 [mFix]).ackIds :=
  C1_amended coMention poFix stEmpty mFix 0 1 (by decide) rfl (by decide) (by decide)

/-! ## C2 — poison-message policy -/

/-- C2 counterexample: a bad-signature envelope pulled in two successive
cycles is processed (attempted) in both — poison ids are not entered into
the dedupe map, so a redelivered poison envelope causes a second processing
attempt, refuting "never causes more than one processing attempt". -/
theorem C2_counterexample :
    coBadSig.verify mFix = false ∧
    "m-1" ∈ (runPollCycle coBadSig poFix stEmpty 0 [mFix]).ackIds ∧
    "m-1" ∈ (runPollCycle coBadSig poFix
      (runPollCycle coBadSig poFix stEmpty 0 [mFix]).state 1 [mFix]).ackIds ∧
    effectCount ((runPollCycle coBadSig poFix stEmpty 0 [mFix]).trace ++
        (runPollCycle coBadSig poFix
          (runPollCycle coBadSig poFix stEmpty 0 [mFix]).state 1 [mFix]).trace)
      "m-1" isAttemptEffect = 2 ∧
    ¬ (effectCount ((runPollCycle coBadSig poFix stEmpty 0 [mFix]).trace ++
        (runPollCycle coBadSig poFix
          (runPollCycle coBadSig poFix stEmpty 0 [mFix]).state 1 [mFix]).trace)
      "m-1" isAttemptEffect ≤ 1) := by
  decide

/-- C2 amended: in every poll cycle, every pulled envelope with a non-empty
id whose signature fails verification or whose ciphertext cannot be
decrypted is included in that cycle's ack batch even though it was never
delivered, and the agent transport receives no forward call for its id (as
long as every pulled message carrying that id is poison); a fresh poison
pull is processed exactly once in its cycle.  Redelivered poison copies are
attempted again — poison ids are not recorded in the dedupe map. -/
theorem C2_amended :
    (∀ (co : CryptoOracle) (po : PolicyOracle) (st : BridgeState) (now : Nat)
        (msgs : List BrokerMessage) (m : BrokerMessage),
      m ∈ msgs → m.message_id ≠ "" → poisonInput co m →
      (∀ m2 ∈ msgs, m2.message_id = m.message_id → poisonInput co m2) →
      m.message_id ∈ (runPollCycle co po st now msgs).ackIds ∧
      effectCount (runPollCycle co po st now msgs).trace m.message_id isForwardEffect = 0) ∧
    (∀ (co : CryptoOracle) (po : PolicyOracle) (st : BridgeState) (now : Nat)
        (m : BrokerMessage),
      m.message_id ≠ "" → lookupA (pruneDedupe st.dedupe now) m.message_id = none →
      poisonInput co m →
      effectCount (runPollCycle co po st now [m]).trace m.message_id isAttemptEffect = 1) := by
  constructor
  · intro co po st now msgs m hmem hid hp hall
    constructor
    · exact foldl_poison_ack co po now msgs _ m hmem hid hp
    · rw [runPollCycle,
        foldl_poison_no_forward co po now m.message_id hid msgs _ hall]
      simp [effectCount]
  · intro co po st now m hid hfr hp
    obtain ⟨e, he, _, _, _⟩ :=
      processPulledMessage_poison co po st.threads m now hp
    have hrun : runPollCycle co po st now [m] =
        pollCycleStep co po now
          { trace := [], ackIds := [],
            state := { st with dedupe := pruneDedupe st.dedupe now } } m := rfl
    rw [hrun, pollCycleStep_fresh_err co po now _ m e hid hfr he]
    rw [List.nil_append, effectCount_append]
    have h1 : effectCount [(m.message_id, Effect.healthMark "inbound_process" false)]
        m.message_id isAttemptEffect = 0 := by
      simp [effectCount, List.countP_cons, List.countP_nil, isAttemptEffect]
    have h2 : effectCount ((m.message_id, Effect.processAttemptLog) ::
        (processPulledMessage co po st.threads m now).1.map (fun e2 => (m.message_id, e2)))
        m.message_id isAttemptEffect =
        effectCount ((processPulledMessage co po st.threads m now).1.map
          (fun e2 => (m.message_id, e2))) m.message_id isAttemptEffect + 1 := by
      simp [effectCount, List.countP_cons, isAttemptEffect]
    rw [h1, h2, effectCount_map_tag]
    have hza := processPulledMessage_countP_attempt co po st.threads m now
    omega

/-- C2 witness: the amended theorem at a concrete bad-signature envelope. -/
theorem C2_amended_witness :
    "m-1" ∈ (runPollCycle coBadSig poFix stEmpty 0 [mFix]).ackIds ∧
    effectCount (runPollCycle coBadSig poFix stEmpty 0 [mFix]).trace "m-1"
      isAttemptEffect = 1 :=
  ⟨(C2_amended.1 coBadSig poFix stEmpty 0 [mFix] mFix (by simp) (by decide)
      (Or.inl rfl) (fun _ _ _ => Or.inl rfl)).1,
   C2_amended.2 coBadSig poFix stEmpty 0 mFix (by decide) rfl (Or.inl rfl)⟩

/-! ## C3 — malformed-but-decryptable payloads -/

/-- C3, evaluated at the failing input: an envelope whose signature verifies
and whose ciphertext decrypts to the plaintext `"not json"` makes
`decryptEnvelope`'s `JSON.parse` throw; the error is marked as an
`inbound_decrypt` failure, is NOT classified poison, so the message is NOT
acknowledged, NOT remembered in the dedupe map, and is processed again when
the broker redelivers it — the code retries it instead of treating it as an
acked no-op. -/
theorem C3_malformedJsonRetried :
    (processPulledMessage coNoJson poFix emptyThreadState mFix 0).2.2 =
      some .jsonParseFailed ∧
    isPoisonMessageError .jsonParseFailed = false ∧
    "m-1" ∉ (runPollCycle coNoJson poFix stEmpty 0 [mFix]).ackIds ∧
    ("m-1", Effect.healthMark "inbound_decrypt" false) ∈
      (runPollCycle coNoJson poFix stEmpty 0 [mFix]).trace ∧
    lookupA (runPollCycle coNoJson poFix stEmpty 0 [mFix]).state.dedupe "m-1" = none ∧
    effectCount ((runPollCycle coNoJson poFix stEmpty 0 [mFix]).trace ++
        (runPollCycle coNoJson poFix
          (runPollCycle coNoJson poFix stEmpty 0 [mFix]).state 1 [mFix]).trace)
      "m-1" isAttemptEffect = 2 := by
  decide

/-! ## C6 — thread registry bound and eviction order -/

theorem lookupA_eq_none {α : Type} (l : List (String × α)) (k : String)
    (h : ∀ kv ∈ l, kv.1 ≠ k) : lookupA l k = none := by
  induction l with
  | nil => rfl
  | cons kv rest ih =>
      show (if kv.1 = k then some kv.2 else lookupA rest k) = none
      rw [if_neg (h kv (List.mem_cons_self kv rest))]
      exact ih (fun kv2 h2 => h kv2 (List.mem_cons_of_mem kv h2))

theorem lookupA_append_last {α : Type} (l : List (String × α)) (k : String) (v : α)
    (h : ∀ kv ∈ l, kv.1 ≠ k) : lookupA (l ++ [(k, v)]) k = some v := by
  induction l with
  | nil => simp [lookupA]
  | cons kv rest ih =>
      show (if kv.1 = k then some kv.2 else lookupA (rest ++ [(k, v)]) k) = some v
      rw [if_neg (h kv (List.mem_cons_self kv rest))]
      exact ih (fun kv2 h2 => h kv2 (List.mem_cons_of_mem kv h2))

theorem eraseKeyA_length {α : Type} (k : String) (l : List (String × α)) (v : α)
    (h : lookupA l k = some v) : (eraseKeyA k l).length + 1 = l.length := by
  induction l with
  | nil => simp [lookupA] at h
  | cons kv rest ih =>
      by_cases hk : kv.1 = k
      · simp [eraseKeyA, hk]
      · have h2 : lookupA rest k = some v := by
          have : (if kv.1 = k then some kv.2 else lookupA rest k) = some v := h
          rwa [if_neg hk] at this
        simp [eraseKeyA, hk, ← ih h2]

/-- The miss path below capacity: no eviction, fresh id appended. -/
theorem getThreadId_miss (s : ThreadState) (c t : String) (now : Nat)
    (h : lookupA s.threadLookup (threadKey c t) = none)
    (hlen : s.threadRegistry.length < MAX_THREADS) :
    getThreadId s c t now =
      (threadIdStr (s.threadCounter + 1),
       { threadRegistry := s.threadRegistry ++
           [(threadIdStr (s.threadCounter + 1), ⟨c, t, now, now⟩)],
         threadLookup := (threadKey c t, threadIdStr (s.threadCounter + 1)) :: s.threadLookup,
         threadCounter := s.threadCounter + 1 }) := by
  simp [getThreadId, h, evictOldThreads, hlen]

/-- The miss path at capacity: the first `max(1, MAX_THREADS/10)` entries of
the registry's current order are dropped, then the fresh entry is appended. -/
theorem getThreadId_at_capacity (s : ThreadState) (c t : String) (now : Nat)
    (h : lookupA s.threadLookup (threadKey c t) = none)
    (hcap : s.threadRegistry.length = MAX_THREADS) :
    (getThreadId s c t now).2.threadRegistry =
      s.threadRegistry.drop (max 1 (MAX_THREADS / 10)) ++
        [(threadIdStr (s.threadCounter + 1), ⟨c, t, now, now⟩)] ∧
    (getThreadId s c t now).2.threadCounter = s.threadCounter + 1 := by
  have hnlt : ¬ s.threadRegistry.length < MAX_THREADS := by omega
  constructor <;> simp [getThreadId, h, evictOldThreads, hnlt]

/-- The hit path: the registry entry is deleted and re-appended at the back
with a refreshed `lastAccessAt`. -/
theorem getThreadId_hit (s : ThreadState) (c t : String) (now : Nat)
    (id : String) (entry : ThreadEntry)
    (h : lookupA s.threadLookup (threadKey c t) = some id)
    (h2 : lookupA s.threadRegistry id = some entry) :
    getThreadId s c t now =
      (id,
        { s with
          threadRegistry := eraseKeyA id s.threadRegistry ++
            [(id, { entry with lastAccessAt := now })] }) := by
  simp [getThreadId, h, h2]

/-- `getThreadId_miss` with the state given by its fields, for applying to
large concrete states without definitional unfolding. -/
theorem getThreadId_miss_mk (R : List (String × ThreadEntry))
    (L : List (String × String)) (n : Nat) (c t : String) (now : Nat)
    (h : lookupA L (threadKey c t) = none) (hlen : R.length < MAX_THREADS) :
    getThreadId ⟨R, L, n⟩ c t now =
      (threadIdStr (n + 1),
       ⟨R ++ [(threadIdStr (n + 1), ⟨c, t, now, now⟩)],
        (threadKey c t, threadIdStr (n + 1)) :: L, n + 1⟩) := by
  simp [getThreadId, h, evictOldThreads, hlen]

/-- `getThreadId_hit` with the state given by its fields. -/
theorem getThreadId_hit_mk (R : List (String × ThreadEntry))
    (L : List (String × String)) (n : Nat) (c t : String) (now : Nat)
    (id : String) (entry : ThreadEntry)
    (h : lookupA L (threadKey c t) = some id)
    (h2 : lookupA R id = some entry) :
    getThreadId ⟨R, L, n⟩ c t now =
      (id, ⟨eraseKeyA id R ++ [(id, { entry with lastAccessAt := now })], L, n⟩) := by
  simp [getThreadId, h, h2]

theorem getThreadId_length_le (s : ThreadState) (c t : String) (now : Nat)
    (h : s.threadRegistry.length ≤ MAX_THREADS) :
    (getThreadId s c t now).2.threadRegistry.length ≤ MAX_THREADS := by
  rcases hl : lookupA s.threadLookup (threadKey c t) with _ | id
  · by_cases hlen : s.threadRegistry.length < MAX_THREADS
    · rw [getThreadId_miss s c t now hl hlen]
      simp
      omega
    · have hcap : s.threadRegistry.length = MAX_THREADS := by omega
      obtain ⟨hreg, _⟩ := getThreadId_at_capacity s c t now hl hcap
      rw [hreg]
      simp [List.length_drop, hcap, MAX_THREADS]
  · rcases h2 : lookupA s.threadRegistry id with _ | entry
    · have hsame : getThreadId s c t now = (id, s) := by simp [getThreadId, hl, h2]
      rw [hsame]
      exact h
    · rw [getThreadId_hit s c t now id entry hl h2]
      simp
      have := eraseKeyA_length id s.threadRegistry entry h2
      omega

theorem runThreadCalls_length_le (calls : List (String × String × Nat)) :
    ∀ s : ThreadState, s.threadRegistry.length ≤ MAX_THREADS →
      (runThreadCalls s calls).threadRegistry.length ≤ MAX_THREADS := by
  induction calls with
  | nil => intro s h; exact h
  | cons cl rest ih =>
      intro s h
      exact ih _ (getThreadId_length_le s cl.1 cl.2.1 cl.2.2 h)

theorem runThreadCalls_append (l1 l2 : List (String × String × Nat)) :
    ∀ s : ThreadState, runThreadCalls s (l1 ++ l2) = runThreadCalls (runThreadCalls s l1) l2 := by
  induction l1 with
  | nil => intro s; rfl
  | cons cl rest ih =>
      intro s
      simp only [List.cons_append, runThreadCalls]
      exact ih _

theorem runThreadCalls_singleton (s : ThreadState) (c t : String) (now : Nat) :
    runThreadCalls s [(c, t, now)] = (getThreadId s c t now).2 := rfl

theorem tsKey_length (i : Nat) : (tsKey i).length = i := by
  simp [tsKey, String.length]

theorem fillKey_length (i : Nat) : (threadKey "c" (tsKey i)).length = 2 + i := by
  simp [threadKey, String.length_append, tsKey, String.length]
  omega

/-- Filling the registry with `n ≤ MAX_THREADS` distinct keys from the empty
state: the registry holds the entries in insertion order and no eviction
happens. -/
theorem fill_state (n : Nat) (hn : n ≤ MAX_THREADS) :
    runThreadCalls emptyThreadState (fillCalls n) =
      { threadRegistry := (List.range n).map fillRegEntry,
        threadLookup := ((List.range n).reverse).map fillLookupEntry,
        threadCounter := n } := by
  induction n with
  | zero => simp [fillCalls, runThreadCalls, emptyThreadState]
  | succ k ih =>
      have hk : k ≤ MAX_THREADS := by omega
      have hsplit : fillCalls (k + 1) = fillCalls k ++ [("c", tsKey k, k)] := by
        simp [fillCalls, List.range_succ]
      rw [hsplit, runThreadCalls_append, ih hk, runThreadCalls_singleton]
      have hfr : lookupA (((List.range k).reverse).map fillLookupEntry)
          (threadKey "c" (tsKey k)) = none := by
        apply lookupA_eq_none
        intro kv hkv
        obtain ⟨j, hj, rfl⟩ := List.mem_map.mp hkv
        have hjk : j < k := List.mem_range.mp (List.mem_reverse.mp hj)
        intro heq
        have hlen := congrArg String.length heq
        simp only [fillLookupEntry] at hlen
        rw [fillKey_length, fillKey_length] at hlen
        omega
      have hlen : ((List.range k).map fillRegEntry).length < MAX_THREADS := by
        simp [List.length_map, List.length_range]
        omega
      rw [getThreadId_miss_mk ((List.range k).map fillRegEntry)
        (((List.range k).reverse).map fillLookupEntry) k "c" (tsKey k) k hfr hlen]
      simp [List.range_succ, fillRegEntry, fillLookupEntry, threadIdStr]

theorem range_max_split :
    List.range MAX_THREADS = 0 :: (List.range (MAX_THREADS - 1)).map Nat.succ := by
  rw [show MAX_THREADS = (MAX_THREADS - 1) + 1 from rfl]
  exact List.range_succ_eq_map _

/-- The state after filling to capacity and touching the first key again: the
oldest-by-`createdAt` entry now sits at the BACK of the registry order. -/
theorem lruScenario_eq :
    lruScenarioState =
      { threadRegistry := ((List.range (MAX_THREADS - 1)).map (fun i => fillRegEntry (i + 1))) ++
          [(threadIdStr 1, ⟨"c", tsKey 0, 0, MAX_THREADS⟩)],
        threadLookup := ((List.range MAX_THREADS).reverse).map fillLookupEntry,
        threadCounter := MAX_THREADS } := by
  show runThreadCalls emptyThreadState
      (fillCalls MAX_THREADS ++ [("c", tsKey 0, MAX_THREADS)]) = _
  rw [runThreadCalls_append, fill_state MAX_THREADS (le_refl _), runThreadCalls_singleton]
  have hlk : lookupA (((List.range MAX_THREADS).reverse).map fillLookupEntry)
      (threadKey "c" (tsKey 0)) = some (threadIdStr 1) := by
    rw [range_max_split, List.reverse_cons, List.map_append]
    show lookupA (_ ++ [fillLookupEntry 0]) _ = _
    rw [show fillLookupEntry 0 = (threadKey "c" (tsKey 0), threadIdStr 1) from rfl]
    apply lookupA_append_last
    intro kv hkv
    obtain ⟨j, hj, rfl⟩ := List.mem_map.mp hkv
    have hj1 : 1 ≤ j := by
      obtain ⟨j2, _, rfl⟩ := List.mem_map.mp (List.mem_reverse.mp hj)
      omega
    intro heq
    have hlen := congrArg String.length heq
    simp only [fillLookupEntry] at hlen
    rw [fillKey_length, fillKey_length] at hlen
    omega
  have hreg : lookupA ((List.range MAX_THREADS).map fillRegEntry) (threadIdStr 1) =
      some ⟨"c", tsKey 0, 0, 0⟩ := by
    rw [range_max_split, List.map_cons]
    show (if (fillRegEntry 0).1 = threadIdStr 1 then some (fillRegEntry 0).2 else _) = _
    rw [if_pos (show (fillRegEntry 0).1 = threadIdStr 1 from rfl)]
    rfl
  rw [getThreadId_hit_mk ((List.range MAX_THREADS).map fillRegEntry)
    (((List.range MAX_THREADS).reverse).map fillLookupEntry) MAX_THREADS
    "c" (tsKey 0) MAX_THREADS (threadIdStr 1) ⟨"c", tsKey 0, 0, 0⟩ hlk hreg]
  have herase : eraseKeyA (threadIdStr 1) ((List.range MAX_THREADS).map fillRegEntry) =
      (List.range (MAX_THREADS - 1)).map (fun i => fillRegEntry (i + 1)) := by
    rw [range_max_split, List.map_cons]
    show (if (fillRegEntry 0).1 = threadIdStr 1 then _ else _) = _
    rw [if_pos (show (fillRegEntry 0).1 = threadIdStr 1 from rfl), List.map_map]
    simp [Function.comp, fillRegEntry, Nat.succ_eq_add_one]
  dsimp only
  rw [herase]

theorem lruScenario_fresh :
    lookupA lruScenarioState.threadLookup (threadKey "c" (tsKey MAX_THREADS)) = none := by
  rw [lruScenario_eq]
  dsimp only
  apply lookupA_eq_none
  intro kv hkv
  obtain ⟨j, hj, rfl⟩ := List.mem_map.mp hkv
  have hjlt : j < MAX_THREADS := List.mem_range.mp (List.mem_reverse.mp hj)
  intro heq
  have hlen := congrArg String.length heq
  simp only [fillLookupEntry] at hlen
  rw [fillKey_length, fillKey_length] at hlen
  omega

theorem lruScenario_capacity :
    lruScenarioState.threadRegistry.length = MAX_THREADS := by
  rw [lruScenario_eq]
  dsimp only
  simp [List.length_append, List.length_map, List.length_range, MAX_THREADS]

theorem lruScenario_counter : lruScenarioState.threadCounter = MAX_THREADS := by
  rw [lruScenario_eq]

/-- The registry after the capacity insert in the scenario: the entries
created 1..1000 are evicted, the `createdAt = 0` entry (refreshed by the
lookup hit) survives at the back, and the fresh entry is appended. -/
theorem lruNext_registry :
    (getThreadId lruScenarioState "c" (tsKey MAX_THREADS) (MAX_THREADS + 1)).2.threadRegistry =
      ((List.range' 1000 8999).map (fun i => fillRegEntry (i + 1))) ++
        [(threadIdStr 1, ⟨"c", tsKey 0, 0, MAX_THREADS⟩)] ++
        [(threadIdStr (MAX_THREADS + 1),
          ⟨"c", tsKey MAX_THREADS, MAX_THREADS + 1, MAX_THREADS + 1⟩)] := by
  obtain ⟨hreg, _⟩ := getThreadId_at_capacity lruScenarioState "c" (tsKey MAX_THREADS)
    (MAX_THREADS + 1) lruScenario_fresh lruScenario_capacity
  rw [hreg, lruScenario_counter]
  have hdrop : lruScenarioState.threadRegistry.drop (max 1 (MAX_THREADS / 10)) =
      ((List.range' 1000 8999).map (fun i => fillRegEntry (i + 1))) ++
        [(threadIdStr 1, ⟨"c", tsKey 0, 0, MAX_THREADS⟩)] := by
    rw [lruScenario_eq]
    dsimp only
    have hr : List.range (MAX_THREADS - 1) = List.range' 0 1000 ++ List.range' 1000 8999 := by
      rw [List.range_eq_range']
      rw [show (MAX_THREADS - 1) = 8999 + 1000 from rfl]
      simpa using (List.range'_append 0 1000 8999 1).symm
    rw [hr, List.map_append, List.append_assoc]
    apply List.drop_left'
    simp [List.length_map, List.length_range']
    decide
  rw [hdrop]

/-- C6 counterexample: after filling the registry to capacity and then
touching the very first key again (a lookup hit, which re-inserts that entry
at the back of the iteration order), the next insert at capacity evicts the
entry with `createdAt = 1` while the strictly older entry with
`createdAt = 0` survives — eviction follows LRU recency order, not original
insertion order. -/
theorem C6_counterexample :
    ¬ (∀ (calls : List (String × String × Nat)) (c t : String) (now : Nat),
        evictedOldestFirst (runThreadCalls emptyThreadState calls) c t now) := by
  intro H
  have h : evictedOldestFirst lruScenarioState "c" (tsKey MAX_THREADS) (MAX_THREADS + 1) :=
    H (fillCalls MAX_THREADS ++ [("c", tsKey 0, MAX_THREADS)]) "c" (tsKey MAX_THREADS)
      (MAX_THREADS + 1)
  have hgone_mem : fillRegEntry 1 ∈ lruScenarioState.threadRegistry := by
    rw [lruScenario_eq]
    dsimp only
    apply List.mem_append_left
    exact List.mem_map.mpr ⟨0, List.mem_range.mpr (by simp [MAX_THREADS]), rfl⟩
  have hkept_mem : (threadIdStr 1, (⟨"c", tsKey 0, 0, MAX_THREADS⟩ : ThreadEntry)) ∈
      lruScenarioState.threadRegistry := by
    rw [lruScenario_eq]
    dsimp only
    exact List.mem_append_right _ (List.mem_singleton.mpr rfl)
  have hkept_next : (threadIdStr 1, (⟨"c", tsKey 0, 0, MAX_THREADS⟩ : ThreadEntry)) ∈
      (getThreadId lruScenarioState "c" (tsKey MAX_THREADS)
        (MAX_THREADS + 1)).2.threadRegistry := by
    rw [lruNext_registry]
    exact List.mem_append_left _ (List.mem_append_right _ (List.mem_singleton.mpr rfl))
  have hgone_next : fillRegEntry 1 ∉
      (getThreadId lruScenarioState "c" (tsKey MAX_THREADS)
        (MAX_THREADS + 1)).2.threadRegistry := by
    rw [lruNext_registry]
    intro hmem
    rcases List.mem_append.mp hmem with hmem1 | hnew
    · rcases List.mem_append.mp hmem1 with hA | hx0
      · obtain ⟨j, hj, heq⟩ := List.mem_map.mp hA
        have hj1000 : 1000 ≤ j := (List.mem_range'_1.mp hj).1
        have hcreated := congrArg (fun p : String × ThreadEntry => p.2.createdAt) heq
        simp [fillRegEntry] at hcreated
        omega
      · have hcreated := congrArg (fun p : String × ThreadEntry => p.2.createdAt)
          (List.mem_singleton.mp hx0)
        simp [fillRegEntry] at hcreated
    · have hcreated := congrArg (fun p : String × ThreadEntry => p.2.createdAt)
        (List.mem_singleton.mp hnew)
      simp [fillRegEntry, MAX_THREADS] at hcreated
  have hle := h (fillRegEntry 1) hgone_mem
    (threadIdStr 1, (⟨"c", tsKey 0, 0, MAX_THREADS⟩ : ThreadEntry)) hkept_mem
    hgone_next hkept_next
  simp [fillRegEntry] at hle

/-- C6 amended: after any sequence of `getThreadId` calls from the empty
state the registry never exceeds `MAX_THREADS` entries; when an insert
occurs at capacity, the first `max(1, MAX_THREADS/10)` entries of the
registry's CURRENT iteration order are evicted before the new entry is
appended — but a lookup hit re-inserts its entry at the back of that order,
so the evicted entries are the least recently inserted-or-accessed (LRU
recency), not necessarily the oldest by original insertion. -/
theorem C6_amended :
    (∀ calls : List (String × String × Nat),
      (runThreadCalls emptyThreadState calls).threadRegistry.length ≤ MAX_THREADS) ∧
    (∀ (s : ThreadState) (c t : String) (now : Nat),
      lookupA s.threadLookup (threadKey c t) = none →
      s.threadRegistry.length = MAX_THREADS →
      (getThreadId s c t now).2.threadRegistry =
        s.threadRegistry.drop (max 1 (MAX_THREADS / 10)) ++
          [(threadIdStr (s.threadCounter + 1), ⟨c, t, now, now⟩)] ∧
      (getThreadId s c t now).2.threadRegistry.length ≤ MAX_THREADS) := by
  constructor
  · intro calls
    exact runThreadCalls_length_le calls emptyThreadState (by simp [emptyThreadState])
  · intro s c t now hfr hcap
    obtain ⟨hreg, _⟩ := getThreadId_at_capacity s c t now hfr hcap
    refine ⟨hreg, ?_⟩
    rw [hreg]
    simp [List.length_drop, hcap, MAX_THREADS]

/-- C6 witness: the amended eviction equation applied at the concrete
capacity state of the scenario. -/
theorem C6_amended_witness :
    (getThreadId lruScenarioState "c" (tsKey MAX_THREADS) (MAX_THREADS + 1)).2.threadRegistry =
      lruScenarioState.threadRegistry.drop (max 1 (MAX_THREADS / 10)) ++
        [(threadIdStr (lruScenarioState.threadCounter + 1),
          ⟨"c", tsKey MAX_THREADS, MAX_THREADS + 1, MAX_THREADS + 1⟩)] :=
  (C6_amended.2 lruScenarioState "c" (tsKey MAX_THREADS) (MAX_THREADS + 1)
    lruScenario_fresh lruScenario_capacity).1

end Bridge
